import Mathlib

/-!
Shallow embedding of the topology-sync tool (sync.py) and proofs about its
reconciliation logic: project listing, recency filtering, topology-file
diffing, file creation, commit and pull-request publication.

Python strings are modelled as Lean `String`; `str.replace`, `str.endswith`,
substring containment (`in`), `sorted`, `str.format` and
`datetime.strptime`/`datetime` comparison are each given explicit executable
models below.  Exceptions are modelled with `Except PyError` / `Option
PyError`; side effects (file writes, git operations, HTTP posts) are
reified as `RunAction` values.
-/

namespace TopologySync

/-- Python exception values that the embedded code can raise. -/
inductive PyError where
  | keyError (key : String)
  | typeError (msg : String)
  | valueError (msg : String)
  | nameError (name : String)
  | attributeError (name : String)
  | indexError
  | httpError (path : String)
  deriving DecidableEq

instance {ε α : Type} [DecidableEq ε] [DecidableEq α] : DecidableEq (Except ε α)
  | Except.error e, Except.error f =>
    if h : e = f then .isTrue (by rw [h])
    else .isFalse (fun hc => h (Except.error.inj hc))
  | Except.error _, Except.ok _ => .isFalse (fun hc => Except.noConfusion hc)
  | Except.ok _, Except.error _ => .isFalse (fun hc => Except.noConfusion hc)
  | Except.ok x, Except.ok y =>
    if h : x = y then .isTrue (by rw [h])
    else .isFalse (fun hc => h (Except.ok.inj hc))

/-- A naive `datetime.datetime` value: year, month, day, hour, minute,
second, microsecond. -/
structure DateTime where
  year : Nat
  month : Nat
  day : Nat
  hour : Nat
  minute : Nat
  second : Nat
  microsecond : Nat
  deriving DecidableEq

/-- Python `datetime` comparison `a <= b`: lexicographic on the field tuple
(year, month, day, hour, minute, second, microsecond). -/
def DateTime.le (a b : DateTime) : Bool :=
  if a.year ≠ b.year then decide (a.year < b.year)
  else if a.month ≠ b.month then decide (a.month < b.month)
  else if a.day ≠ b.day then decide (a.day < b.day)
  else if a.hour ≠ b.hour then decide (a.hour < b.hour)
  else if a.minute ≠ b.minute then decide (a.minute < b.minute)
  else if a.second ≠ b.second then decide (a.second < b.second)
  else decide (a.microsecond ≤ b.microsecond)

/-- Lexicographic (code-point) comparison of character lists; this is the
order Python uses to compare `str` values, hence the order `sorted` sorts
by. -/
def lexLe : List Char → List Char → Bool
  | [], _ => true
  | _ :: _, [] => false
  | a :: as, b :: bs => if a = b then lexLe as bs else decide (a < b)

/-- Python string comparison `a <= b`. -/
def pyStrLe (a b : String) : Bool :=
  lexLe a.data b.data

/-- Substring search on character lists: does `pat` occur (contiguously)
anywhere in the scanned list?  Models Python `pat in s`. -/
def containsAux (pat : List Char) : List Char → Bool
  | [] => pat.isPrefixOf []
  | c :: rest => pat.isPrefixOf (c :: rest) || containsAux pat rest

/-- Python `pat in s` for strings. -/
def pyContains (s pat : String) : Bool :=
  containsAux pat.data s.data

/-- One scanning pass of Python `str.replace`: at each position, if the
(non-empty) pattern matches there, emit the replacement and resume after
the matched text; otherwise keep the character.  Occurrences are
non-overlapping and found left to right, exactly as in CPython.  The `fuel`
argument makes the recursion structural; `fuel ≥ length of the input`
suffices since every step consumes at least one input character. -/
def replaceFuel (pat new : List Char) : Nat → List Char → List Char
  | 0, s => s
  | _ + 1, [] => []
  | fuel + 1, c :: rest =>
    if pat ≠ [] ∧ pat.isPrefixOf (c :: rest) then
      new ++ replaceFuel pat new fuel (rest.drop (pat.length - 1))
    else
      c :: replaceFuel pat new fuel rest

/-- Python `s.replace(pat, new)` (for the non-empty patterns used in
sync.py). -/
def pyReplace (s pat new : String) : String :=
  ⟨replaceFuel pat.data new.data s.data.length s.data⟩

/-- Python `s.endswith(suffix)`. -/
def pyEndsWith (s suffix : String) : Bool :=
  suffix.data.isSuffixOf s.data

/-! Digit and month helpers for the embedded `datetime.strptime`. -/

/-- Numeric value of a list of decimal digit characters (most significant
first). -/
def digitsToNat (ds : List Char) : Nat :=
  ds.foldl (fun acc c => acc * 10 + (c.toNat - 48)) 0

/-- Month number from a three-letter English abbreviation, compared
case-insensitively the way `strptime` matches `%b`. -/
def monthFromAbbrev (cs : List Char) : Option Nat :=
  match (cs.map Char.toLower).asString with
  | "jan" => some 1
  | "feb" => some 2
  | "mar" => some 3
  | "apr" => some 4
  | "may" => some 5
  | "jun" => some 6
  | "jul" => some 7
  | "aug" => some 8
  | "sep" => some 9
  | "oct" => some 10
  | "nov" => some 11
  | "dec" => some 12
  | _ => none

/-- Number of days in a month, with the Gregorian leap-year rule; used by
the `datetime` constructor validation inside `strptime`. -/
def daysInMonth (year month : Nat) : Nat :=
  if month = 2 then
    if year % 4 = 0 ∧ (year % 100 ≠ 0 ∨ year % 400 = 0) then 29 else 28
  else if month = 4 ∨ month = 6 ∨ month = 9 ∨ month = 11 then 30
  else 31

/-- Parse a one-or-two digit field the way strptime's regular expressions
for day, hour, minute and second do: two digits are consumed when the
two-digit value is within `[lo, hi]`, otherwise a single digit is consumed
when its value is within `[lo, min hi 9]`.  Returns the value and the rest
of the input. -/
def parseTwoDigitField (lo hi : Nat) : List Char → Option (Nat × List Char)
  | c1 :: c2 :: rest =>
    if c1.isDigit ∧ c2.isDigit ∧ lo ≤ digitsToNat [c1, c2] ∧ digitsToNat [c1, c2] ≤ hi then
      some (digitsToNat [c1, c2], rest)
    else if c1.isDigit ∧ lo ≤ digitsToNat [c1] ∧ digitsToNat [c1] ≤ hi then
      some (digitsToNat [c1], c2 :: rest)
    else
      none
  | [c1] =>
    if c1.isDigit ∧ lo ≤ digitsToNat [c1] ∧ digitsToNat [c1] ≤ hi then
      some (digitsToNat [c1], [])
    else
      none
  | [] => none

/-- Consume an expected literal character. -/
def parseLit (c : Char) : List Char → Option (List Char)
  | c1 :: rest => if c1 = c then some rest else none
  | [] => none

/-- Consume up to `n` leading digits (at least one), as `%f` does. -/
def parseDigitsUpTo (n : Nat) (cs : List Char) : Option (List Char × List Char) :=
  let ds := (cs.take n).takeWhile Char.isDigit
  if ds = [] then none else some (ds, cs.drop ds.length)

/-- Model of `datetime.strptime(s, "%Y-%b-%d %H:%M:%S.%f %Z")`, the one
format string used by sync.py: a four-digit year, a dash, a three-letter
month abbreviation, a dash, a day, a space, `H:M:S`, a dot, one to six
fractional-second digits (right-padded to microseconds), a space and a
timezone name.  `%Z` accepts the UTC/GMT names (local timezone aliases are
not modelled); the whole input must be consumed, and the resulting
field values are validated as the `datetime` constructor does.  Any
mismatch raises `ValueError`. -/
def strptimeOsg (s : String) : Except PyError DateTime :=
  let err : Except PyError DateTime :=
    Except.error (PyError.valueError "time data does not match format")
  match s.data with
  | y1 :: y2 :: y3 :: y4 :: rest0 =>
    if ¬ (y1.isDigit ∧ y2.isDigit ∧ y3.isDigit ∧ y4.isDigit) then err else
    let year := digitsToNat [y1, y2, y3, y4]
    match parseLit '-' rest0 with
    | none => err
    | some rest1 =>
      match rest1 with
      | m1 :: m2 :: m3 :: rest2 =>
        match monthFromAbbrev [m1, m2, m3] with
        | none => err
        | some month =>
          match parseLit '-' rest2 with
          | none => err
          | some rest3 =>
            match parseTwoDigitField 1 31 rest3 with
            | none => err
            | some (day, rest4) =>
              match parseLit ' ' rest4 with
              | none => err
              | some rest5 =>
                match parseTwoDigitField 0 23 rest5 with
                | none => err
                | some (hour, rest6) =>
                  match parseLit ':' rest6 with
                  | none => err
                  | some rest7 =>
                    match parseTwoDigitField 0 59 rest7 with
                    | none => err
                    | some (minute, rest8) =>
                      match parseLit ':' rest8 with
                      | none => err
                      | some rest9 =>
                        match parseTwoDigitField 0 59 rest9 with
                        | none => err
                        | some (second, rest10) =>
                          match parseLit '.' rest10 with
                          | none => err
                          | some rest11 =>
                            match parseDigitsUpTo 6 rest11 with
                            | none => err
                            | some (fracDigits, rest12) =>
                              let microsecond :=
                                digitsToNat fracDigits * 10 ^ (6 - fracDigits.length)
                              match parseLit ' ' rest12 with
                              | none => err
                              | some rest13 =>
                                let tz := (rest13.map Char.toLower).asString
                                if tz ≠ "utc" ∧ tz ≠ "gmt" then err
                                else if day ≤ daysInMonth year month then
                                  Except.ok
                                    ⟨year, month, day, hour, minute, second, microsecond⟩
                                else err
      | _ => err
  | _ => err

/-! The membership-database client capability.  Modelled from the spec:
the `UserApiClient` class lives in the repository's `client` module, whose
source is not part of the reviewed tree; §6 of the spec fixes its
contract: `list_group_names() -> set<string>`, `get_group_metadata(name) ->
mapping` with at least `description`, `purpose`, `creation_date`, and a
generic attribute read.  sync.py consumes it through `get_group_list()`,
`get_group(name)["metadata"]` and `_get(path)`. -/

/-- The `metadata` mapping of a group as sync.py reads it; each field is
`Option` because a mapping lookup of an absent key raises `KeyError`. -/
structure GroupMetadata where
  description : Option String
  purpose : Option String
  creationDate : Option String
  deriving DecidableEq

/-- Modelled from the spec: one `UserApiClient` oracle — the group-name
listing returned by `get_group_list()`, the per-group `metadata` mappings
returned by `get_group`, and the raw bodies returned by `_get` keyed by
request path.  A lookup miss models a failed REST call. -/
structure ClientState where
  groupList : List String
  groups : List (String × GroupMetadata)
  rawBodies : List (String × String)
  deriving DecidableEq

/-- Model of `client.get_group(name)["metadata"]`. -/
def ClientState.getGroup (c : ClientState) (name : String) : Except PyError GroupMetadata :=
  match c.groups.lookup name with
  | some md => Except.ok md
  | none => Except.error (PyError.httpError name)

/-- Model of `client._get(path)`. -/
def ClientState.rawGet (c : ClientState) (path : String) : Except PyError String :=
  match c.rawBodies.lookup path with
  | some body => Except.ok body
  | none => Except.error (PyError.httpError path)

/-- Mapping access `md[key]`: `KeyError` when the key is absent. -/
def mdLookup (v : Option String) (key : String) : Except PyError String :=
  match v with
  | some s => Except.ok s
  | none => Except.error (PyError.keyError key)

/-! Model of `str.format`.  A format call first scans the template for
replacement fields, then resolves every field against the positional and
keyword arguments (a named field that is not among the keyword arguments
raises `KeyError`, a positional index past the end raises `IndexError`),
and finally substitutes the resolved texts back into the template. -/

/-- Collect the replacement-field names of a format template, in order.
The scanner state is `inField` (are we between braces) plus the characters
of the current field name, reversed. -/
def formatFieldsAux : Bool → List Char → List Char → List (List Char)
  | _, _, [] => []
  | true, cur, c :: rest =>
    if c = '\x7d' then cur.reverse :: formatFieldsAux false [] rest
    else formatFieldsAux true (c :: cur) rest
  | false, _, c :: rest =>
    if c = '\x7b' then formatFieldsAux true [] rest
    else formatFieldsAux false [] rest

/-- Resolve one replacement field: an all-digit name indexes the positional
arguments, an empty name consumes the next auto-numbered positional
argument, any other name is looked up among the keyword arguments. -/
def resolveField (field : List Char) (positional : List String)
    (kwargs : List (String × String)) (autoIdx : Nat) : Except PyError (String × Nat) :=
  if field = [] then
    match positional.get? autoIdx with
    | some v => Except.ok (v, autoIdx + 1)
    | none => Except.error PyError.indexError
  else if field.all Char.isDigit then
    match positional.get? (digitsToNat field) with
    | some v => Except.ok (v, autoIdx)
    | none => Except.error PyError.indexError
  else
    match kwargs.lookup field.asString with
    | some v => Except.ok (v, autoIdx)
    | none => Except.error (PyError.keyError field.asString)

/-- Resolve all replacement fields left to right, threading the
auto-numbering index. -/
def resolveFields (positional : List String) (kwargs : List (String × String)) :
    List (List Char) → Nat → Except PyError (List String)
  | [], _ => Except.ok []
  | f :: fs, autoIdx =>
    match resolveField f positional kwargs autoIdx with
    | Except.error e => Except.error e
    | Except.ok (v, autoIdx2) =>
      match resolveFields positional kwargs fs autoIdx2 with
      | Except.error e => Except.error e
      | Except.ok vs => Except.ok (v :: vs)

/-- Substitute resolved field values back into the template text. -/
def substFieldsAux : Bool → List String → List Char → List Char
  | _, _, [] => []
  | true, vals, c :: rest =>
    if c = '\x7d' then
      (vals.headD "").data ++ substFieldsAux false vals.tail rest
    else substFieldsAux true vals rest
  | false, vals, c :: rest =>
    if c = '\x7b' then substFieldsAux true vals rest
    else c :: substFieldsAux false vals rest

/-- Python `template.format(*positional, **kwargs)` for the brace-simple
templates used in sync.py (no nested or formatted fields). -/
def pyFormat (template : String) (positional : List String)
    (kwargs : List (String × String)) : Except PyError String :=
  match resolveFields positional kwargs (formatFieldsAux false [] template.data) 0 with
  | Except.error e => Except.error e
  | Except.ok vals => Except.ok ⟨substFieldsAux false vals template.data⟩

/-! The Project Lister: `get_all_osg_projects` (src/src/sync.py lines
52-79). -/

/-- Relation used to model Python `sorted` on strings. -/
def strLeProp (a b : String) : Prop :=
  pyStrLe a b = true

instance : DecidableRel strLeProp := fun a b => by
  unfold strLeProp; infer_instance

instance : IsTotal String strLeProp where
  total := by
    intro a b
    have L : ∀ x y : List Char, lexLe x y = true ∨ lexLe y x = true := by
      intro x
      induction x with
      | nil => intro y; exact Or.inl rfl
      | cons cx xs ih =>
        intro y
        cases y with
        | nil => exact Or.inr rfl
        | cons cy ys =>
          by_cases hcd : cx = cy
          · subst hcd
            rcases ih ys with h | h
            · exact Or.inl (by simpa [lexLe] using h)
            · exact Or.inr (by simpa [lexLe] using h)
          · rcases lt_or_gt_of_ne hcd with h | h
            · exact Or.inl (by simp [lexLe, hcd, h])
            · exact Or.inr (by simp [lexLe, Ne.symm hcd, h])
    exact L a.data b.data

instance : IsTrans String strLeProp where
  trans := by
    intro a b c hab hbc
    have L : ∀ x y z : List Char,
        lexLe x y = true → lexLe y z = true → lexLe x z = true := by
      intro x
      induction x with
      | nil => intro y z _ _; rfl
      | cons cx xs ih =>
        intro y z hxy hyz
        cases y with
        | nil => simp [lexLe] at hxy
        | cons cy ys =>
          cases z with
          | nil => simp [lexLe] at hyz
          | cons cz zs =>
            by_cases h1 : cx = cy <;> by_cases h2 : cy = cz
            · subst h1; subst h2
              simp only [lexLe, if_pos rfl] at hxy hyz ⊢
              exact ih ys zs hxy hyz
            · subst h1
              simp only [lexLe, if_neg h2, decide_eq_true_eq] at hyz
              simp [lexLe, ne_of_lt hyz, hyz]
            · subst h2
              simp only [lexLe, if_neg h1, decide_eq_true_eq] at hxy
              simp [lexLe, ne_of_lt hxy, hxy]
            · simp only [lexLe, if_neg h1, if_neg h2, decide_eq_true_eq] at hxy hyz
              have h3 : cx < cz := lt_trans hxy hyz
              simp [lexLe, ne_of_lt h3, h3]
    exact L a.data b.data c.data hab hbc

/-- The body of the `for project in tqdm(sorted(...))` loop: fetch each
group's metadata, and for every name other than the root `"root.osg"`
parse its `creation_date` and emit the pair.  An exception anywhere aborts
the whole listing. -/
def listProjectsLoop (client : ClientState) : List String → Except PyError (List (String × DateTime))
  | [] => Except.ok []
  | p :: rest =>
    match client.getGroup p with
    | Except.error e => Except.error e
    | Except.ok md =>
      if p ≠ "root.osg" then
        match mdLookup md.creationDate "creation_date" with
        | Except.error e => Except.error e
        | Except.ok cd =>
          match strptimeOsg cd with
          | Except.error e => Except.error e
          | Except.ok dt =>
            match listProjectsLoop client rest with
            | Except.error e => Except.error e
            | Except.ok tail => Except.ok ((p, dt) :: tail)
      else
        listProjectsLoop client rest

/-- `get_all_osg_projects(client)`: filter the group names for those
containing `"root.osg"` (substring match), sort them, then run the
metadata loop. -/
def getAllOsgProjects (client : ClientState) : Except PyError (List (String × DateTime)) :=
  listProjectsLoop client
    (List.insertionSort strLeProp
      (client.groupList.filter (fun project => pyContains project "root.osg")))

/-- `get_all_projects_added_after_date(projects, date)` (src/src/sync.py
lines 82-95): keep the records with `p[1] >= date`. -/
def getAllProjectsAddedAfterDate (projects : List (String × DateTime)) (date : DateTime) :
    List (String × DateTime) :=
  projects.filter (fun p => DateTime.le date p.2)

/-- `get_topology_files(topology_projects_dir)` (src/src/sync.py lines
98-112): the directory is modelled by the list of its entry names; keep
the names ending in `".yaml"` and apply `name.replace(".yaml", "")` to
each, collecting a set. -/
def getTopologyFiles (topologyProjectsDir : List String) : Finset String :=
  ((topologyProjectsDir.filter (fun f => pyEndsWith f ".yaml")).map
    (fun f => pyReplace f ".yaml" "")).toFinset

/-! Model of the YAML layer used by `create_topology_file`: `yaml.dump`
serializes the five-key ordered record into a block-style document whose
keys appear in the record's own (insertion) order, and re-parsing the file
recovers the record.  The value domain is nested string mappings, which is
all sync.py ever writes. -/

/-- A YAML value as sync.py uses them: a string scalar or a mapping whose
entries keep their insertion order. -/
inductive YVal where
  | str (s : String)
  | map (entries : List (String × YVal))

/-- Escape one character for a double-quoted scalar. -/
def escapeChar (c : Char) : List Char :=
  if c = '\\' then ['\\', '\\']
  else if c = '"' then ['\\', '"']
  else if c = '\n' then ['\\', 'n']
  else [c]

/-- Escape a scalar so the emitted line contains no raw newline and a
closing quote can be recognised unambiguously. -/
def escapeStr (cs : List Char) : List Char :=
  (cs.map escapeChar).flatten

/-- Undo `escapeStr`; `none` on a dangling or unknown escape. -/
def unescapeStr : List Char → Option (List Char)
  | [] => some []
  | c :: rest =>
    if c = '\\' then
      match rest with
      | [] => none
      | e :: rest2 =>
        let c0 :=
          if e = '\\' then some '\\'
          else if e = '"' then some '"'
          else if e = 'n' then some '\n'
          else none
        match c0, unescapeStr rest2 with
        | some c1, some tail => some (c1 :: tail)
        | _, _ => none
    else
      match unescapeStr rest with
      | some tail => some (c :: tail)
      | none => none

/-- A run of spaces for block indentation. -/
def spacesIndent (n : Nat) : String :=
  ⟨List.replicate n ' '⟩

/-- Modelled from the spec: serialize a mapping as a block-style document,
one line per scalar entry (`key: "value"`) and an indented sub-block per
nested mapping, keys in insertion order — the observable behaviour of the
`yaml.dump(entry, f)` call for the records sync.py writes.  The fuel
argument bounds the total number of entries visited and makes the
recursion structural; it is spent once per entry. -/
def dumpEntries : Nat → Nat → List (String × YVal) → List String
  | 0, _, _ => []
  | _ + 1, _, [] => []
  | fuel + 1, indent, (k, YVal.str v) :: rest =>
    (spacesIndent indent ++ k ++ ": \"" ++ ⟨escapeStr v.data⟩ ++ "\"") ::
      dumpEntries fuel indent rest
  | fuel + 1, indent, (k, YVal.map m) :: rest =>
    (spacesIndent indent ++ k ++ ":") ::
      (dumpEntries fuel (indent + 2) m ++ dumpEntries fuel indent rest)

/-- Join emitted lines into the file text, one trailing newline each. -/
def joinNl (ls : List (List Char)) : List Char :=
  (ls.map (fun l => l ++ ['\n'])).flatten

/-- The serialized document for a mapping, as a single string. -/
def dumpDoc (entries : List (String × YVal)) : String :=
  ⟨joinNl ((dumpEntries 64 0 entries).map String.data)⟩

/-- Split file text back into lines at newlines; a trailing fragment
without a final newline still counts as a line. -/
def splitNlAux : List Char → List Char → List (List Char)
  | cur, [] => if cur = [] then [] else [cur.reverse]
  | cur, c :: rest =>
    if c = '\n' then cur.reverse :: splitNlAux [] rest
    else splitNlAux (c :: cur) rest

/-- Indentation depth of a line. -/
def lineIndent (l : List Char) : Nat :=
  (l.takeWhile (fun c => c = ' ')).length

/-- Split a line at its first colon into key text and the remainder. -/
def splitAtColon : List Char → Option (List Char × List Char)
  | [] => none
  | c :: rest =>
    if c = ':' then some ([], rest)
    else
      match splitAtColon rest with
      | some (k, a) => some (c :: k, a)
      | none => none

/-- Read the text after a key's colon as a double-quoted scalar. -/
def parseQuoted : List Char → Option String
  | ' ' :: '"' :: rest =>
    match rest.getLast?, unescapeStr rest.dropLast with
    | some '"', some v => some ⟨v⟩
    | _, _ => none
  | _ => none

/-- Parse the entries of one block at the given indent, returning them
with the unconsumed lines (the first line with smaller indent ends the
block).  Fuel is spent once per line examined. -/
def parseEntries : Nat → Nat → List (List Char) → Option (List (String × YVal) × List (List Char))
  | 0, _, _ => none
  | _ + 1, _, [] => some ([], [])
  | fuel + 1, indent, line :: rest =>
    if lineIndent line < indent then some ([], line :: rest)
    else if lineIndent line = indent then
      match splitAtColon (line.drop indent) with
      | none => none
      | some (key, after) =>
        if after = [] then
          match parseEntries fuel (indent + 2) rest with
          | none => none
          | some (sub, rest2) =>
            match parseEntries fuel indent rest2 with
            | none => none
            | some (sibs, rest3) => some ((⟨key⟩, YVal.map sub) :: sibs, rest3)
        else
          match parseQuoted after with
          | none => none
          | some v =>
            match parseEntries fuel indent rest with
            | none => none
            | some (sibs, rest2) => some ((⟨key⟩, YVal.str v) :: sibs, rest2)
    else none

/-- Re-parse a written file into its mapping, as the test suite does with
`yaml.load`; fails unless the whole text is consumed. -/
def parseDoc (s : String) : Option (List (String × YVal)) :=
  match parseEntries 64 0 (splitNlAux [] s.data) with
  | some (entries, []) => some entries
  | _ => none

/-- The top-level keys of a serialized document, in the order its lines
list them: the key text before the first colon of every zero-indent
line. -/
def topLevelKeys (doc : String) : List String :=
  ((splitNlAux [] doc.data).filter (fun l => decide (lineIndent l = 0))).filterMap
    (fun l => (splitAtColon l).map (fun kv => (⟨kv.1⟩ : String)))

/-! The File Writer: `create_topology_file` (src/src/sync.py lines
115-149). -/

/-- The `entry` ordered record built by `create_topology_file`: exactly
five keys in insertion order, with the fixed nested sponsor mapping. -/
def buildEntry (description fieldOfScience organization piName : String) :
    List (String × YVal) :=
  [("Description", YVal.str description),
   ("FieldOfScience", YVal.str fieldOfScience),
   ("Organization", YVal.str organization),
   ("PIName", YVal.str piName),
   ("Sponsor", YVal.map [("CampusGrid", YVal.map [("Name", YVal.str "OSG Connect")])])]

/-- Write (create or overwrite) a file: the filesystem is an association
list from path to content in which the newest binding wins. -/
def fsWrite (fs : List (String × String)) (path content : String) : List (String × String) :=
  (path, content) :: fs

/-- `create_topology_file(client, project_name, dst)`: four values are
fetched — the group's `description` and `purpose` from its metadata, and
the two PI attributes via `_get` on formatted paths — and only then is the
destination opened and the serialized entry written.  The filesystem is
threaded explicitly; any failed fetch propagates and returns it
untouched. -/
def createTopologyFile (client : ClientState) (projectName : String) (dst : String)
    (fs : List (String × String)) : Except PyError Unit × List (String × String) :=
  match client.getGroup projectName with
  | Except.error e => (Except.error e, fs)
  | Except.ok projectInfo =>
    match mdLookup projectInfo.description "description" with
    | Except.error e => (Except.error e, fs)
    | Except.ok description =>
      match mdLookup projectInfo.purpose "purpose" with
      | Except.error e => (Except.error e, fs)
      | Except.ok fieldOfScience =>
        match pyFormat "/groups/\x7b\x7d/attributes/OSG:PI_Organization" [projectName] [] with
        | Except.error e => (Except.error e, fs)
        | Except.ok orgPath =>
          match client.rawGet orgPath with
          | Except.error e => (Except.error e, fs)
          | Except.ok organization =>
            match pyFormat "/groups/\x7b\x7d/attributes/OSG:PI_Name" [projectName] [] with
            | Except.error e => (Except.error e, fs)
            | Except.ok piPath =>
              match client.rawGet piPath with
              | Except.error e => (Except.error e, fs)
              | Except.ok piName =>
                let entry := buildEntry description fieldOfScience organization piName
                (Except.ok (), fsWrite fs dst (dumpDoc entry))

/-! The Publisher: `commit` (src/src/sync.py lines 152-179, identical in
src/sync.py lines 103-120) and `create_pull_request` (lines 186-213). -/

/-- Observable side effects of a run. -/
inductive RunAction where
  | chdir (path : String)
  | fileWrite (path : String)
  | gitAdd (path : String)
  | gitCommit (message : String)
  | gitPush
  | commitCall (project : String)
  | prPost (base head title : String)
  deriving DecidableEq

/-- The expression `Set(repo.untracked_files)` at src/src/sync.py line
168: `Set` here is `typing.Set` (imported by `from typing import List,
Set, Tuple`), and instantiating a bare `typing` alias raises `TypeError:
Type Set cannot be instantiated; use set() instead` — it does not build a
set. -/
def typingSetCall (contents : List String) : Except PyError (List String) :=
  Except.error (PyError.typeError "Type Set cannot be instantiated; use set() instead")

/-- Git repository state as `commit` observes it. -/
structure RepoState where
  untrackedFiles : List String
  hasOriginRemote : Bool
  deriving DecidableEq

/-- `commit(project, topology_repo_path)`: change directory, open the
repository, resolve the `origin` remote (an `AttributeError` if absent),
evaluate `Set(repo.untracked_files)`, and — were that to yield the
untracked set — stage, commit and push when `<project>.yaml` is untracked,
or silently do nothing when it is not.  The string appended to the commit
message is the function's `project` argument. -/
def commitFn (project : String) (topologyRepoPath : String) (repo : RepoState) :
    List RunAction × Option PyError :=
  let actions := [RunAction.chdir topologyRepoPath]
  if repo.hasOriginRemote then
    match typingSetCall repo.untrackedFiles with
    | Except.error e => (actions, some e)
    | Except.ok untrackedFiles =>
      match pyFormat "\x7b\x7d.yaml" [project] [] with
      | Except.error e => (actions, some e)
      | Except.ok projectFileName =>
        if projectFileName ∈ untrackedFiles then
          (actions ++
            [RunAction.gitAdd projectFileName,
             RunAction.gitCommit ("added topology file for new project: " ++ project),
             RunAction.gitPush], none)
        else
          (actions, none)
  else
    (actions, some (PyError.attributeError "origin"))

/-- `create_pull_request(gh_user, gh_token)`: post one pull-request
creation call (base `master`, head `<user>:master`, fixed tool-attributed
title), then test the response status against 201 and do nothing either
way (`if r.status_code != 201: pass`). -/
def createPullRequest (ghUser ghToken : String) (responseStatus : Nat) :
    List RunAction × Option PyError :=
  match pyFormat "\x7buname\x7d:master" [] [("uname", ghUser)] with
  | Except.error e => ([], some e)
  | Except.ok head =>
    let actions :=
      [RunAction.prPost "master" head
        "[initiated by topology-sync tool] topology files have been created/updated"]
    if responseStatus ≠ 201 then (actions, none) else (actions, none)

/-! The reconciliation loop of `__main__` (src/src/sync.py lines 253-266;
the same loop, with a well-formed `create_topology_file` call, is
src/sync.py lines 158-169). -/

/-- The records the loop acts on: for each record the candidate stem is
`project[0].replace("root.osg.", "")` and the record is kept exactly when
that stem is not in the `topology_files` set. -/
def missingProjects (records : List (String × DateTime)) (topologyFiles : Finset String) :
    List (String × DateTime) :=
  records.filter (fun pr => decide (pyReplace pr.1 "root.osg." "" ∉ topologyFiles))

/-- The loop itself, with Python's call semantics kept: for each record
the stem is computed and tested against the `topology_files` set, which
is passed along unchanged (no code in the loop updates it); the first
record whose stem is missing reaches the statement
`create_topology_file(project_name, topology_repo_path / "projects" /
"{}.yaml".format(project_name))` at src/src/sync.py line 262, which
passes two positional arguments to the three-parameter function
`(client, project_name, dst)` and therefore raises `TypeError` at the
call — before any file is opened — aborting the run with no file or git
action at all.  (Python's message quotes the missing parameter name;
the quotes are omitted here.) -/
def syncLoopRun (topologyFiles : Finset String) :
    List (String × DateTime) → List RunAction × Option PyError
  | [] => ([], none)
  | pr :: rest =>
    let projectName := pyReplace pr.1 "root.osg." ""
    if projectName ∈ topologyFiles then
      syncLoopRun topologyFiles rest
    else
      ([], some (PyError.typeError
        "create_topology_file() missing 1 required positional argument: dst"))

/-- The loop as the claim describes it: one topology-file write plus one
commit call per record whose stem is missing, with the known-file set
updated in memory immediately after each write. -/
def claimSyncLoop (topologyFiles : Finset String) : List (String × DateTime) → List RunAction
  | [] => []
  | pr :: rest =>
    let projectName := pyReplace pr.1 "root.osg." ""
    if projectName ∈ topologyFiles then
      claimSyncLoop topologyFiles rest
    else
      RunAction.fileWrite (projectName ++ ".yaml") ::
      RunAction.commitCall pr.1 ::
      claimSyncLoop (insert projectName topologyFiles) rest

/-- The stem as the spec's differ contract describes it: strip the known
prefix `root.osg.` (when present) from the front of the name, leaving the
rest of the name unchanged. -/
def specStem (name : String) : String :=
  if "root.osg.".data.isPrefixOf name.data then
    ⟨name.data.drop "root.osg.".data.length⟩
  else
    name

/-- The differ as the claim describes it: keep the records whose
prefix-stripped stem is not among the existing stems. -/
def claimMissing (records : List (String × DateTime)) (existing : Finset String) :
    List (String × DateTime) :=
  records.filter (fun pr => decide (specStem pr.1 ∉ existing))

/-- The stem as the spec's `existing_stems` contract describes it: the
trailing `".yaml"` suffix — and only the trailing suffix — stripped from
the file name. -/
def stripYamlSuffix (f : String) : String :=
  ⟨f.data.take (f.data.length - ".yaml".data.length)⟩

/-- `existing_stems` as the claim describes it: the `.yaml`-suffixed entry
names with the trailing suffix stripped. -/
def claimStems (topologyProjectsDir : List String) : Finset String :=
  ((topologyProjectsDir.filter (fun f => pyEndsWith f ".yaml")).map stripYamlSuffix).toFinset

/-- The `__main__` run of src/src/sync.py up to its first observable
file or git action, for a run whose credential files read successfully:
list the projects, filter them against the cutoff (the script computes the
cutoff as now minus 24 hours; it is passed in directly here), then build
the clone URL with `"https://github.com/{username}/topology.git".format(gh_username)`
— a positional argument against a named replacement field, so the format
call raises `KeyError: 'username'`.  Were the URL ever built, the
`to_path=tmpdirname` argument of `Repo.clone_from` names an undefined
variable (the binding is `tmpdir_name`) and would raise `NameError`
before any clone, write or commit happens either way. -/
def mainRun (ghUsername : String) (client : ClientState) (cutoff : DateTime) :
    List RunAction × Option PyError :=
  match getAllOsgProjects client with
  | Except.error e => ([], some e)
  | Except.ok allProjects =>
    let projectsAddedInLastDay := getAllProjectsAddedAfterDate allProjects cutoff
    match pyFormat "https://github.com/\x7busername\x7d/topology.git" [ghUsername] [] with
    | Except.error e => ([], some e)
    | Except.ok _url =>
      let _ := projectsAddedInLastDay
      ([], some (PyError.nameError "tmpdirname"))

/-! Concrete scenario oracles used by the theorems below. -/

/-- The end-to-end scenario of the spec: the membership capability reports
exactly the project `root.osg.TEST-PROJECT`, created at
`2022-Jan-01 01:01:01.000000 UTC`, with the metadata and attributes of the
repository's own test fixture. -/
def c1Client : ClientState :=
  ⟨["root.osg.TEST-PROJECT"],
   [("root.osg.TEST-PROJECT",
     ⟨some "this is a test description", some "Computer Sciences",
      some "2022-Jan-01 01:01:01.000000 UTC"⟩)],
   [("/groups/root.osg.TEST-PROJECT/attributes/OSG:PI_Organization", "test-org"),
    ("/groups/root.osg.TEST-PROJECT/attributes/OSG:PI_Name", "pi-name")]⟩

/-- The end-to-end scenario cutoff, 2022-01-01T00:00:00. -/
def c1Cutoff : DateTime := ⟨2022, 1, 1, 0, 0, 0, 0⟩

/-- A client whose group listing mixes matching, non-matching and root
names, out of order, to exercise the Lister. -/
def c7Client : ClientState :=
  ⟨["root.osg.B", "root.osg", "other", "root.osg.A"],
   [("root.osg.A", ⟨none, none, some "2021-Feb-02 02:02:02.000000 UTC"⟩),
    ("root.osg.B", ⟨none, none, some "2020-Mar-23 18:40:46.716576 UTC"⟩),
    ("root.osg", ⟨none, none, none⟩)],
   []⟩

/-- A client with the test fixture's metadata and attributes for
`test-project`, for exercising the file writer. -/
def c4Client : ClientState :=
  ⟨["root.osg.test-project"],
   [("test-project", ⟨some "this is a test description", some "Computer Sciences", none⟩)],
   [("/groups/test-project/attributes/OSG:PI_Organization", "test-org"),
    ("/groups/test-project/attributes/OSG:PI_Name", "pi-name")]⟩

/-- A client whose group metadata lacks the `description` key, so the
first mapping access in `create_topology_file` raises `KeyError`. -/
def c10Client : ClientState :=
  ⟨[], [("broken-project", ⟨none, some "cs", none⟩)], []⟩

/-! ## Sanity checks of the embedded Python primitives -/

example : pyReplace "a.yaml" ".yaml" "" = "a" := by decide
example : pyReplace "root.osg.TEST-PROJECT" "root.osg." "" = "TEST-PROJECT" := by decide
example : pyReplace "x.root.osg.y" "root.osg." "" = "x.y" := by decide
example : pyContains "root.osg.TEST-PROJECT" "root.osg" = true := by decide
example : pyContains "other" "root.osg" = false := by decide
example : pyEndsWith "b.yml" ".yaml" = false := by decide
example : pyStrLe "root.osg" "root.osg.A" = true := by decide
example : strptimeOsg "2022-Jan-01 01:01:01.000000 UTC" =
    Except.ok ⟨2022, 1, 1, 1, 1, 1, 0⟩ := by decide
example : strptimeOsg "2020-Mar-23 18:40:46.716576 UTC" =
    Except.ok ⟨2020, 3, 23, 18, 40, 46, 716576⟩ := by decide
example : strptimeOsg "2022-Feb-30 01:01:01.000000 UTC" =
    Except.error (PyError.valueError "time data does not match format") := by decide

/-! ## Helper lemmas -/

theorem DateTime.le_refl (a : DateTime) : DateTime.le a a = true := by
  simp [DateTime.le]

theorem replaceFuel_nil (pat new : List Char) (fuel : Nat) :
    replaceFuel pat new fuel [] = [] := by
  cases fuel <;> rfl

theorem replaceFuel_not_contains (pat new : List Char) :
    ∀ fuel s, containsAux pat s = false → replaceFuel pat new fuel s = s := by
  intro fuel
  induction fuel with
  | zero => intro s _; rfl
  | succ n ih =>
    intro s h
    cases s with
    | nil => rfl
    | cons c rest =>
      simp only [containsAux, Bool.or_eq_false_iff] at h
      simp only [replaceFuel]
      rw [if_neg, ih rest h.2]
      rintro ⟨-, hp⟩
      rw [h.1] at hp
      exact Bool.noConfusion hp

theorem replaceFuel_prefix_step (pat new rest : List Char) (hpat : pat ≠ []) (fuel : Nat) :
    replaceFuel pat new (fuel + 1) (pat ++ rest) = new ++ replaceFuel pat new fuel rest := by
  cases pat with
  | nil => exact absurd rfl hpat
  | cons q qs =>
    simp only [List.cons_append, replaceFuel]
    rw [if_pos]
    · congr 2
      simp [List.drop_left]
    · refine ⟨hpat, ?_⟩
      rw [List.isPrefixOf_iff_prefix]
      exact ⟨rest, by simp⟩

theorem replaceFuel_prefix_clean (pat new rest : List Char) (hpat : pat ≠ [])
    (hrest : containsAux pat rest = false) (fuel : Nat) :
    replaceFuel pat new (fuel + 1) (pat ++ rest) = new ++ rest := by
  rw [replaceFuel_prefix_step pat new rest hpat fuel,
    replaceFuel_not_contains pat new fuel rest hrest]

theorem replaceFuel_only_trailing (pat new : List Char) (hpat : pat ≠ []) :
    ∀ stem fuel, (stem ++ pat).length ≤ fuel →
      (∀ i, i < stem.length → pat.isPrefixOf ((stem ++ pat).drop i) = false) →
      replaceFuel pat new fuel (stem ++ pat) = stem ++ new := by
  intro stem
  induction stem with
  | nil =>
    intro fuel hf _
    cases fuel with
    | zero =>
      exfalso
      have : pat = [] := by
        apply List.eq_nil_of_length_eq_zero
        simpa using Nat.le_zero.mp hf
      exact hpat this
    | succ n =>
      have h2 := replaceFuel_prefix_step pat new [] hpat n
      rw [List.append_nil, replaceFuel_nil, List.append_nil] at h2
      simpa using h2
  | cons c stem2 ih =>
    intro fuel hf hocc
    cases fuel with
    | zero =>
      exfalso
      have := Nat.le_zero.mp hf
      simp [List.length_append] at this
    | succ n =>
      have hlen : (stem2 ++ pat).length ≤ n := by
        have : (stem2 ++ pat).length + 1 ≤ n + 1 := by
          simpa [List.length_cons] using hf
        omega
      have hocc2 : ∀ i, i < stem2.length → pat.isPrefixOf ((stem2 ++ pat).drop i) = false := by
        intro i hi
        have := hocc (i + 1) (by simpa using Nat.succ_lt_succ hi)
        simpa using this
      have h0 : pat.isPrefixOf (c :: (stem2 ++ pat)) = false := by
        have := hocc 0 (by simp)
        simpa using this
      show replaceFuel pat new (n + 1) (c :: (stem2 ++ pat)) = c :: (stem2 ++ new)
      simp only [replaceFuel]
      rw [if_neg, ih n hlen hocc2]
      rintro ⟨-, hp⟩
      rw [h0] at hp
      exact Bool.noConfusion hp

theorem pyReplace_not_contains (s pat new : String) (h : pyContains s pat = false) :
    pyReplace s pat new = s := by
  unfold pyReplace
  rw [replaceFuel_not_contains pat.data new.data s.data.length s.data h]

/-! ## Claim C5 -/

/-- C5 counterexample: `get_topology_files` uses `replace(".yaml", "")`,
which removes every occurrence of `".yaml"` from the entry name, not only
the trailing suffix: a directory containing `a.yaml.yaml` yields the stem
`a`, while the claim's trailing-suffix-stripping yields `a.yaml`. -/
theorem c5_counterexample :
    getTopologyFiles ["a.yaml.yaml"] = {"a"}
    ∧ claimStems ["a.yaml.yaml"] = {"a.yaml"}
    ∧ getTopologyFiles ["a.yaml.yaml"] ≠ claimStems ["a.yaml.yaml"] :=
  ⟨by decide, by decide, by decide⟩

/-- C5 (amended): `existing_stems` returns exactly the names of entries
directly inside the directory that end in `".yaml"`, each with every
occurrence of the text `".yaml"` removed to form the stem; when the only
occurrence of `".yaml"` in a name is the trailing suffix this agrees with
stripping that suffix, and in particular a directory containing
`["a.yaml", "b.yml", "c.yaml"]` yields `{"a", "c"}`. -/
theorem c5_stems_spec (listing : List String) :
    (∀ s, s ∈ getTopologyFiles listing ↔
      ∃ f, f ∈ listing ∧ pyEndsWith f ".yaml" = true ∧ s = pyReplace f ".yaml" "")
    ∧ (∀ f : String, pyEndsWith f ".yaml" = true →
        (∀ i, i < f.data.length - 5 → ".yaml".data.isPrefixOf (f.data.drop i) = false) →
        pyReplace f ".yaml" "" = stripYamlSuffix f)
    ∧ getTopologyFiles ["a.yaml", "b.yml", "c.yaml"] = {"a", "c"} := by
  refine ⟨?_, ?_, by decide⟩
  · intro s
    simp only [getTopologyFiles, List.mem_toFinset, List.mem_map, List.mem_filter]
    constructor
    · rintro ⟨f, ⟨hf, he⟩, hs⟩
      exact ⟨f, hf, he, hs.symm⟩
    · rintro ⟨f, hf, he, hs⟩
      exact ⟨f, ⟨hf, he⟩, hs.symm⟩
  · intro f hend hocc
    have hsuf : ".yaml".data <:+ f.data := by
      rw [← List.isSuffixOf_iff_suffix]
      exact hend
    obtain ⟨stem, hstem⟩ := hsuf
    have hlen : f.data.length = stem.length + 5 := by
      rw [← hstem, List.length_append]
      rfl
    have hdata : pyReplace f ".yaml" "" = (⟨stem⟩ : String) := by
      unfold pyReplace
      rw [← hstem]
      rw [replaceFuel_only_trailing ".yaml".data "".data (by decide) stem
        (stem ++ ".yaml".data).length (Nat.le_refl _) ?_]
      · simp
      · intro i hi
        have := hocc i (by omega)
        rw [← hstem] at this
        exact this
    rw [hdata]
    unfold stripYamlSuffix
    congr 1
    rw [← hstem]
    have h5 : ".yaml".data.length = 5 := by decide
    rw [List.length_append, h5, Nat.add_sub_cancel]
    exact (List.take_left stem _).symm

/-! ## Claim C6 -/

/-- C6 counterexample: the loop's stem is
`project[0].replace("root.osg.", "")`, which deletes every occurrence of
`"root.osg."`, not just a leading prefix: for the name
`root.osg.root.osg.T` the prefix-stripped stem `root.osg.T` is among the
existing stems, so the claim says the record is dropped, yet the code
keeps it (its replace-all stem `T` is not in the set). -/
theorem c6_counterexample :
    missingProjects [("root.osg.root.osg.T", ⟨2022, 1, 1, 0, 0, 0, 0⟩)] {"root.osg.T"} =
      [("root.osg.root.osg.T", ⟨2022, 1, 1, 0, 0, 0, 0⟩)]
    ∧ specStem "root.osg.root.osg.T" = "root.osg.T"
    ∧ claimMissing [("root.osg.root.osg.T", ⟨2022, 1, 1, 0, 0, 0, 0⟩)] {"root.osg.T"} = [] :=
  ⟨by decide, by decide, by decide⟩

/-- C6 (amended): the differ forms each record's candidate stem by
deleting every occurrence of the text `"root.osg."` from the full project
name, keeps exactly the records whose stem is not in the existing set,
and preserves the input order of the kept records; whenever the name's
remaining text contains no further occurrence of `"root.osg."`, the stem
coincides with stripping the known prefix. -/
theorem c6_differ_spec (records : List (String × DateTime)) (existing : Finset String) :
    (missingProjects records existing).Sublist records
    ∧ (∀ pr, pr ∈ missingProjects records existing ↔
        pr ∈ records ∧ pyReplace pr.1 "root.osg." "" ∉ existing)
    ∧ (∀ n : String, containsAux "root.osg.".data (specStem n).data = false →
        pyReplace n "root.osg." "" = specStem n) := by
  refine ⟨List.filter_sublist _, ?_, ?_⟩
  · intro pr
    simp [missingProjects, List.mem_filter]
  · intro n hclean
    by_cases hp : "root.osg.".data.isPrefixOf n.data = true
    · have hpre : "root.osg.".data <+: n.data := List.isPrefixOf_iff_prefix.mp hp
      obtain ⟨rest, hrest⟩ := hpre
      have hspec : specStem n = (⟨rest⟩ : String) := by
        unfold specStem
        rw [if_pos hp]
        congr 1
        rw [← hrest, List.drop_left]
      rw [hspec] at hclean ⊢
      obtain ⟨k, hk⟩ : ∃ k, n.data.length = k + 1 := by
        refine ⟨n.data.length - 1, ?_⟩
        have : 0 < n.data.length := by
          rw [← hrest, List.length_append]
          simp [Nat.lt_of_lt_of_le (by decide : (0 : Nat) < 9) (Nat.le_add_right _ _)]
        omega
      unfold pyReplace
      rw [hk, ← hrest, replaceFuel_prefix_clean "root.osg.".data "".data rest
        (by decide) hclean k]
      rfl
    · have hnp : "root.osg.".data.isPrefixOf n.data = false :=
        Bool.eq_false_iff.mpr (fun hc => hp hc)
      have hspec : specStem n = n := by
        unfold specStem
        rw [if_neg]
        intro hc
        rw [hnp] at hc
        exact Bool.noConfusion hc
      rw [hspec] at hclean ⊢
      exact pyReplace_not_contains n "root.osg." "" hclean

/-! ## Claim C3 -/

/-- C3: no code in the loop updates the known-file set after a write, and
the loop as written cannot even perform one write: it produces no file or
git action for any snapshot and any record list, because at the first
record whose stem is missing from the snapshot the `create_topology_file`
call — made without its `client` argument — raises `TypeError` before any
file is opened.  In particular, for a duplicated new project name the run
creates nothing and aborts with the `TypeError`, where the claim's
updated-set loop would write and commit the file exactly once. -/
theorem c3_loop_aborts_at_first_missing :
    (∀ (topologyFiles : Finset String) (records : List (String × DateTime)),
      (syncLoopRun topologyFiles records).1 = [])
    ∧ syncLoopRun ∅ [("root.osg.DUP", ⟨2022, 1, 1, 0, 0, 0, 0⟩),
                     ("root.osg.DUP", ⟨2022, 1, 1, 0, 0, 0, 0⟩)] =
      ([], some (PyError.typeError
        "create_topology_file() missing 1 required positional argument: dst"))
    ∧ claimSyncLoop ∅ [("root.osg.DUP", ⟨2022, 1, 1, 0, 0, 0, 0⟩),
                       ("root.osg.DUP", ⟨2022, 1, 1, 0, 0, 0, 0⟩)] =
      [RunAction.fileWrite "DUP.yaml", RunAction.commitCall "root.osg.DUP"] := by
  refine ⟨?_, by decide, by decide⟩
  intro topologyFiles records
  induction records with
  | nil => rfl
  | cons pr rest ih =>
    simp only [syncLoopRun]
    by_cases h : pyReplace pr.1 "root.osg." "" ∈ topologyFiles
    · rw [if_pos h]
      exact ih
    · rw [if_neg h]

/-! ## Claim C8 -/

/-- C8: the recency filter is a pure total function that preserves the
input order (its output is a sublist of its input) and keeps exactly the
records whose timestamp is greater than or equal to the cutoff — in
particular a record timestamped exactly at the cutoff is retained and any
record with timestamp strictly below the cutoff (for instance one
microsecond earlier) is excluded. -/
theorem c8_filter_since (projects : List (String × DateTime)) (date : DateTime) :
    (getAllProjectsAddedAfterDate projects date).Sublist projects
    ∧ (∀ p, p ∈ getAllProjectsAddedAfterDate projects date ↔
        p ∈ projects ∧ DateTime.le date p.2 = true)
    ∧ (∀ p, p ∈ projects → p.2 = date → p ∈ getAllProjectsAddedAfterDate projects date)
    ∧ (∀ p, p ∈ projects → DateTime.le date p.2 = false →
        p ∉ getAllProjectsAddedAfterDate projects date) := by
  refine ⟨List.filter_sublist _, ?_, ?_, ?_⟩
  · intro p
    simp [getAllProjectsAddedAfterDate, List.mem_filter]
  · intro p hp he
    simp [getAllProjectsAddedAfterDate, List.mem_filter, hp, he, DateTime.le_refl]
  · intro p hp hf
    simp [getAllProjectsAddedAfterDate, List.mem_filter, hp, hf]

/-- C8 boundary witness: a record stamped exactly at the cutoff is kept
and a record stamped one microsecond earlier is dropped. -/
theorem c8_witness :
    ("at-cutoff", (⟨2022, 1, 3, 1, 1, 1, 500000⟩ : DateTime)) ∈
      getAllProjectsAddedAfterDate
        [("at-cutoff", ⟨2022, 1, 3, 1, 1, 1, 500000⟩),
         ("one-microsecond-early", ⟨2022, 1, 3, 1, 1, 1, 499999⟩)]
        ⟨2022, 1, 3, 1, 1, 1, 500000⟩
    ∧ ("one-microsecond-early", (⟨2022, 1, 3, 1, 1, 1, 499999⟩ : DateTime)) ∉
      getAllProjectsAddedAfterDate
        [("at-cutoff", ⟨2022, 1, 3, 1, 1, 1, 500000⟩),
         ("one-microsecond-early", ⟨2022, 1, 3, 1, 1, 1, 499999⟩)]
        ⟨2022, 1, 3, 1, 1, 1, 500000⟩ :=
  ⟨(c8_filter_since _ _).2.2.1 _ (by decide) (by decide),
   (c8_filter_since _ _).2.2.2 _ (by decide) (by decide)⟩

/-! ## Claim C9 -/

theorem pyFormat_uname (u : String) :
    pyFormat "\x7buname\x7d:master" [] [("uname", u)] = Except.ok (u ++ ":master") := rfl

/-- C9: for every HTTP status code other than 201, `create_pull_request`
performs its single post and returns normally — no exception, no retry
(exactly one post action), no report (no error value). -/
theorem c9_pull_request_swallows (ghUser ghToken : String) (status : Nat) (h : status ≠ 201) :
    createPullRequest ghUser ghToken status =
      ([RunAction.prPost "master" (ghUser ++ ":master")
          "[initiated by topology-sync tool] topology files have been created/updated"],
       none) := by
  unfold createPullRequest
  rw [pyFormat_uname]
  simp

/-- C9 witness: a 404 response is swallowed. -/
theorem c9_witness :
    createPullRequest "testuser" "tok" 404 =
      ([RunAction.prPost "master" "testuser:master"
          "[initiated by topology-sync tool] topology files have been created/updated"],
       none) :=
  c9_pull_request_swallows "testuser" "tok" 404 (by decide)

/-! ## Claim C2 -/

/-- C2: `commit` never reaches its tracked-file no-op branch: for every
repository state with an `origin` remote — in particular one where
`<short_name>.yaml` is already tracked — the call performs no stage, no
commit and no push, but raises `TypeError` from the
`Set(repo.untracked_files)` expression (`Set` is `typing.Set`), instead of
returning silently as the claim states. -/
theorem c2_commit_always_raises (project topologyRepoPath : String) (repo : RepoState)
    (h : repo.hasOriginRemote = true) :
    commitFn project topologyRepoPath repo =
      ([RunAction.chdir topologyRepoPath],
       some (PyError.typeError "Type Set cannot be instantiated; use set() instead")) := by
  unfold commitFn
  rw [if_pos h]
  rfl

/-- C2 witness: committing `root.osg.TEST-PROJECT` when
`root.osg.TEST-PROJECT.yaml` is already tracked (it is not among the
untracked files) raises the `TypeError` instead of silently doing
nothing; a second identical call raises again. -/
theorem c2_witness :
    commitFn "root.osg.TEST-PROJECT" "/tmp/topology" ⟨["other.yaml"], true⟩ =
      ([RunAction.chdir "/tmp/topology"],
       some (PyError.typeError "Type Set cannot be instantiated; use set() instead")) :=
  c2_commit_always_raises "root.osg.TEST-PROJECT" "/tmp/topology" ⟨["other.yaml"], true⟩ rfl

/-! ## Claim C1 -/

/-- C1: in the end-to-end scenario — the membership capability reports
exactly `root.osg.TEST-PROJECT` created at
`2022-Jan-01 01:01:01.000000 UTC` and the cutoff is 2022-01-01T00:00:00 —
the listing and the recency filter do deliver the one project, but the
run then crashes formatting the clone URL
(`"https://github.com/{username}/topology.git".format(gh_username)`
raises `KeyError: 'username'`), so it performs no file write and no
commit at all rather than producing one file and one commit. -/
theorem c1_run_crashes_before_any_commit :
    getAllOsgProjects c1Client =
      Except.ok [("root.osg.TEST-PROJECT", ⟨2022, 1, 1, 1, 1, 1, 0⟩)]
    ∧ getAllProjectsAddedAfterDate
        [("root.osg.TEST-PROJECT", ⟨2022, 1, 1, 1, 1, 1, 0⟩)] c1Cutoff =
        [("root.osg.TEST-PROJECT", ⟨2022, 1, 1, 1, 1, 1, 0⟩)]
    ∧ mainRun "testuser" c1Client c1Cutoff = ([], some (PyError.keyError "username")) :=
  ⟨rfl, rfl, rfl⟩

/-! ## Claim C10 -/

/-- C10: every fetch of `create_topology_file` happens before the
destination is opened for writing, so whenever any of them fails the
function propagates the exception and leaves the filesystem exactly as it
found it. -/
theorem c10_failed_fetch_leaves_fs (client : ClientState) (projectName dst : String)
    (fs : List (String × String)) (e : PyError)
    (h : (createTopologyFile client projectName dst fs).1 = Except.error e) :
    (createTopologyFile client projectName dst fs).2 = fs := by
  unfold createTopologyFile at h ⊢
  cases hg : client.getGroup projectName with
  | error e2 => simp only [hg]
  | ok md =>
    simp only [hg] at h ⊢
    cases hd : mdLookup md.description "description" with
    | error e2 => simp only [hd]
    | ok d =>
      simp only [hd] at h ⊢
      cases hp : mdLookup md.purpose "purpose" with
      | error e2 => simp only [hp]
      | ok fos =>
        simp only [hp] at h ⊢
        cases hf1 : pyFormat "/groups/\x7b\x7d/attributes/OSG:PI_Organization" [projectName] [] with
        | error e2 => simp only [hf1]
        | ok orgPath =>
          simp only [hf1] at h ⊢
          cases ho : client.rawGet orgPath with
          | error e2 => simp only [ho]
          | ok org =>
            simp only [ho] at h ⊢
            cases hf2 : pyFormat "/groups/\x7b\x7d/attributes/OSG:PI_Name" [projectName] [] with
            | error e2 => simp only [hf2]
            | ok piPath =>
              simp only [hf2] at h ⊢
              cases hn : client.rawGet piPath with
              | error e2 => simp only [hn]
              | ok pin =>
                simp only [hn] at h
                exact absurd h (by simp)

/-- C10 witness: with a client whose group metadata lacks `description`,
the call fails and an arbitrary pre-existing filesystem is returned
unchanged. -/
theorem c10_witness :
    (createTopologyFile c10Client "broken-project" "/dst" [("keep", "x")]).2 =
      [("keep", "x")] :=
  c10_failed_fetch_leaves_fs c10Client "broken-project" "/dst" [("keep", "x")]
    (PyError.keyError "description") rfl

/-! ## Claim C7 -/

theorem listProjectsLoop_names (client : ClientState) :
    ∀ names l, listProjectsLoop client names = Except.ok l →
      l.map Prod.fst = names.filter (fun n => decide (n ≠ "root.osg")) := by
  intro names
  induction names with
  | nil =>
    intro l h
    simp only [listProjectsLoop] at h
    obtain rfl := Except.ok.inj h
    rfl
  | cons p rest ih =>
    intro l h
    simp only [listProjectsLoop] at h
    cases hg : client.getGroup p with
    | error e =>
      simp only [hg] at h
      exact Except.noConfusion h
    | ok md =>
      simp only [hg] at h
      by_cases hroot : p = "root.osg"
      · rw [if_neg (by simp [hroot])] at h
        rw [ih l h]
        simp [List.filter, hroot]
      · rw [if_pos hroot] at h
        cases hcd : mdLookup md.creationDate "creation_date" with
        | error e =>
          simp only [hcd] at h
          exact Except.noConfusion h
        | ok cd =>
          simp only [hcd] at h
          cases hdt : strptimeOsg cd with
          | error e =>
            simp only [hdt] at h
            exact Except.noConfusion h
          | ok dt =>
            simp only [hdt] at h
            cases hrec : listProjectsLoop client rest with
            | error e =>
              simp only [hrec] at h
              exact Except.noConfusion h
            | ok tail =>
              simp only [hrec] at h
              obtain rfl := Except.ok.inj h
              simp [List.filter, hroot, ih tail hrec]

/-- C7: whenever the Lister returns a list, every returned pair's name
contains the token `"root.osg"` as a substring and differs from the exact
root name `"root.osg"`, and the pairs are sorted ascending by name. -/
theorem c7_lister_properties (client : ClientState) (l : List (String × DateTime))
    (h : getAllOsgProjects client = Except.ok l) :
    (∀ pr ∈ l, pyContains pr.1 "root.osg" = true ∧ pr.1 ≠ "root.osg")
    ∧ List.Pairwise (fun a b : String × DateTime => pyStrLe a.1 b.1 = true) l := by
  unfold getAllOsgProjects at h
  have hnames := listProjectsLoop_names client _ l h
  constructor
  · intro pr hpr
    have h1 : pr.1 ∈ l.map Prod.fst := List.mem_map_of_mem _ hpr
    rw [hnames] at h1
    rw [List.mem_filter] at h1
    obtain ⟨h2, h3⟩ := h1
    refine ⟨?_, by simpa using h3⟩
    have h4 : pr.1 ∈ client.groupList.filter (fun project => pyContains project "root.osg") := by
      simpa [List.mem_insertionSort] using h2
    exact (List.mem_filter.mp h4).2
  · have hs : List.Sorted strLeProp
        (List.insertionSort strLeProp
          (client.groupList.filter (fun project => pyContains project "root.osg"))) :=
      List.sorted_insertionSort strLeProp _
    have hsub : List.Sublist (l.map Prod.fst)
        (List.insertionSort strLeProp
          (client.groupList.filter (fun project => pyContains project "root.osg"))) := by
      rw [hnames]
      exact List.filter_sublist _
    have hp : List.Pairwise strLeProp (l.map Prod.fst) := hs.sublist hsub
    rw [List.pairwise_map] at hp
    exact hp

/-- C7 witness: for a listing mixing matching, non-matching and root
names out of order, the returned pairs carry only the matching non-root
names, sorted ascending. -/
theorem c7_witness :
    (∀ pr ∈ [("root.osg.A", (⟨2021, 2, 2, 2, 2, 2, 0⟩ : DateTime)),
             ("root.osg.B", (⟨2020, 3, 23, 18, 40, 46, 716576⟩ : DateTime))],
      pyContains pr.1 "root.osg" = true ∧ pr.1 ≠ "root.osg")
    ∧ List.Pairwise (fun a b : String × DateTime => pyStrLe a.1 b.1 = true)
        [("root.osg.A", ⟨2021, 2, 2, 2, 2, 2, 0⟩),
         ("root.osg.B", ⟨2020, 3, 23, 18, 40, 46, 716576⟩)] :=
  c7_lister_properties c7Client _ rfl

/-! ## Claim C4: serialization lemmas -/

theorem escapeStr_cons (c : Char) (cs : List Char) :
    escapeStr (c :: cs) = escapeChar c ++ escapeStr cs := by
  simp [escapeStr]

theorem escapeStr_no_newline : ∀ cs, '\n' ∉ escapeStr cs := by
  intro cs
  induction cs with
  | nil => simp [escapeStr]
  | cons c cs ih =>
    rw [escapeStr_cons]
    intro hmem
    rcases List.mem_append.mp hmem with h | h
    · unfold escapeChar at h
      split_ifs at h with h1 h2 h3
      · revert h; decide
      · revert h; decide
      · revert h; decide
      · simp at h
        exact h3 h.symm
    · exact ih h

theorem unescapeStr_escapeStr : ∀ cs, unescapeStr (escapeStr cs) = some cs := by
  intro cs
  induction cs with
  | nil => rfl
  | cons c cs ih =>
    rw [escapeStr_cons]
    by_cases h1 : c = '\\'
    · subst h1
      rw [show escapeChar '\\' = ['\\', '\\'] from rfl]
      simp [unescapeStr, ih]
    · by_cases h2 : c = '"'
      · subst h2
        rw [show escapeChar '"' = ['\\', '"'] from rfl]
        simp [unescapeStr, ih]
      · by_cases h3 : c = '\n'
        · subst h3
          rw [show escapeChar '\n' = ['\\', 'n'] from rfl]
          simp [unescapeStr, ih]
        · rw [show escapeChar c = if c = '\\' then ['\\', '\\'] else if c = '"' then ['\\', '"'] else if c = '\n' then ['\\', 'n'] else [c] from rfl]
          rw [if_neg h1, if_neg h2, if_neg h3, List.singleton_append]
          rw [unescapeStr.eq_def]
          simp only [if_neg h1, ih]

theorem no_newline_value_line (pre : List Char) (hpre : '\n' ∉ pre) (v : String) :
    '\n' ∉ pre ++ (escapeStr v.data ++ ['"']) := by
  intro h
  rcases List.mem_append.mp h with h | h
  · exact hpre h
  · rcases List.mem_append.mp h with h | h
    · exact escapeStr_no_newline _ h
    · simp at h

theorem splitNlAux_line : ∀ l : List Char, '\n' ∉ l →
    ∀ cur rest, splitNlAux cur (l ++ '\n' :: rest) = (cur.reverse ++ l) :: splitNlAux [] rest := by
  intro l
  induction l with
  | nil =>
    intro _ cur rest
    simp [splitNlAux]
  | cons c l2 ih =>
    intro hl cur rest
    have hc : c ≠ '\n' := fun h => hl (h ▸ List.mem_cons_self c l2)
    have hl2 : '\n' ∉ l2 := fun h => hl (List.mem_cons_of_mem c h)
    simp only [List.cons_append, splitNlAux, if_neg hc, List.append_eq]
    rw [ih hl2 (c :: cur) rest]
    simp

theorem splitNl_joinNl : ∀ ls : List (List Char), (∀ l ∈ ls, '\n' ∉ l) →
    splitNlAux [] (joinNl ls) = ls := by
  intro ls
  induction ls with
  | nil => intro _; rfl
  | cons l ls ih =>
    intro h
    unfold joinNl
    simp only [List.map_cons, List.flatten_cons]
    rw [List.append_assoc, List.singleton_append,
      splitNlAux_line l (h l (List.mem_cons_self l ls)) [] _]
    simp only [List.reverse_nil, List.nil_append]
    have := ih (fun x hx => h x (List.mem_cons_of_mem _ hx))
    unfold joinNl at this
    rw [this]

theorem parseQuoted_escaped (v : String) :
    parseQuoted (' ' :: '"' :: (escapeStr v.data ++ ['"'])) = some v := by
  simp only [parseQuoted]
  rw [List.getLast?_concat, List.dropLast_concat, unescapeStr_escapeStr]
  rfl

theorem parseEntries_value_step (fuel indent : Nat) (line key after : List Char) (v : String)
    (rest : List (List Char)) (sibs : List (String × YVal)) (rest2 : List (List Char))
    (h1 : lineIndent line = indent)
    (h2 : splitAtColon (line.drop indent) = some (key, after))
    (h3 : parseQuoted after = some v)
    (hrec : parseEntries fuel indent rest = some (sibs, rest2)) :
    parseEntries (fuel + 1) indent (line :: rest) = some ((⟨key⟩, YVal.str v) :: sibs, rest2) := by
  have hne : after ≠ [] := by
    intro hE
    rw [hE] at h3
    exact Option.noConfusion h3
  simp only [parseEntries, h1, h2, h3, hrec, if_neg hne, lt_self_iff_false, if_false,
    eq_self_iff_true, if_true]

theorem parseEntries_map_step (fuel indent : Nat) (line key : List Char)
    (rest rest2 rest3 : List (List Char)) (sub sibs : List (String × YVal))
    (h1 : lineIndent line = indent)
    (h2 : splitAtColon (line.drop indent) = some (key, []))
    (hsub : parseEntries fuel (indent + 2) rest = some (sub, rest2))
    (hrec : parseEntries fuel indent rest2 = some (sibs, rest3)) :
    parseEntries (fuel + 1) indent (line :: rest) = some ((⟨key⟩, YVal.map sub) :: sibs, rest3) := by
  simp only [parseEntries, h1, h2, hsub, hrec, lt_self_iff_false, if_false,
    eq_self_iff_true, if_true]

theorem pyFormat_org_attr (v : String) :
    pyFormat "/groups/\x7b\x7d/attributes/OSG:PI_Organization" [v] [] =
      Except.ok ("/groups/" ++ v ++ "/attributes/OSG:PI_Organization") := rfl

theorem pyFormat_pi_attr (v : String) :
    pyFormat "/groups/\x7b\x7d/attributes/OSG:PI_Name" [v] [] =
      Except.ok ("/groups/" ++ v ++ "/attributes/OSG:PI_Name") := rfl

/-- C4: for every record whose four fetched string values succeed,
`create_topology_file` writes exactly the serialized five-key entry built
from those values; re-parsing the written document recovers the entry —
values and nesting preserved exactly — and the document lists its
top-level keys in the entry's insertion order (Description,
FieldOfScience, Organization, PIName, Sponsor). -/
theorem c4_round_trip (client : ClientState) (projectName dst : String)
    (fs : List (String × String)) (md : GroupMetadata) (d fos org pin : String)
    (hg : client.getGroup projectName = Except.ok md)
    (hd : md.description = some d)
    (hp : md.purpose = some fos)
    (ho : client.rawGet ("/groups/" ++ projectName ++ "/attributes/OSG:PI_Organization") =
      Except.ok org)
    (hn : client.rawGet ("/groups/" ++ projectName ++ "/attributes/OSG:PI_Name") =
      Except.ok pin) :
    createTopologyFile client projectName dst fs =
      (Except.ok (), fsWrite fs dst (dumpDoc (buildEntry d fos org pin)))
    ∧ parseDoc (dumpDoc (buildEntry d fos org pin)) = some (buildEntry d fos org pin)
    ∧ topLevelKeys (dumpDoc (buildEntry d fos org pin)) =
        ["Description", "FieldOfScience", "Organization", "PIName", "Sponsor"] := by
  have hsplit : splitNlAux [] (dumpDoc (buildEntry d fos org pin)).data =
      ["Description: \"".data ++ (escapeStr d.data ++ ['"']),
       "FieldOfScience: \"".data ++ (escapeStr fos.data ++ ['"']),
       "Organization: \"".data ++ (escapeStr org.data ++ ['"']),
       "PIName: \"".data ++ (escapeStr pin.data ++ ['"']),
       "Sponsor:".data,
       "  CampusGrid:".data,
       "    Name: \"OSG Connect\"".data] := by
    rw [show (dumpDoc (buildEntry d fos org pin)).data =
        joinNl ["Description: \"".data ++ (escapeStr d.data ++ ['"']),
                "FieldOfScience: \"".data ++ (escapeStr fos.data ++ ['"']),
                "Organization: \"".data ++ (escapeStr org.data ++ ['"']),
                "PIName: \"".data ++ (escapeStr pin.data ++ ['"']),
                "Sponsor:".data,
                "  CampusGrid:".data,
                "    Name: \"OSG Connect\"".data] from rfl]
    apply splitNl_joinNl
    intro l hl
    simp only [List.mem_cons, List.not_mem_nil, or_false] at hl
    rcases hl with rfl | rfl | rfl | rfl | rfl | rfl | rfl
    · exact no_newline_value_line _ (by decide) d
    · exact no_newline_value_line _ (by decide) fos
    · exact no_newline_value_line _ (by decide) org
    · exact no_newline_value_line _ (by decide) pin
    · decide
    · decide
    · decide
  refine ⟨?_, ?_, ?_⟩
  · simp only [createTopologyFile, hg, mdLookup, hd, hp, pyFormat_org_attr,
      pyFormat_pi_attr, ho, hn]
  · have s5 : parseEntries 60 0
        ["Sponsor:".data, "  CampusGrid:".data, "    Name: \"OSG Connect\"".data] =
        some ([("Sponsor",
          YVal.map [("CampusGrid", YVal.map [("Name", YVal.str "OSG Connect")])])], []) := rfl
    have s4 : parseEntries 61 0
        (("PIName: \"".data ++ (escapeStr pin.data ++ ['"'])) ::
          ["Sponsor:".data, "  CampusGrid:".data, "    Name: \"OSG Connect\"".data]) =
        some ([("PIName", YVal.str pin),
          ("Sponsor",
            YVal.map [("CampusGrid", YVal.map [("Name", YVal.str "OSG Connect")])])], []) :=
      parseEntries_value_step 60 0
        ("PIName: \"".data ++ (escapeStr pin.data ++ ['"']))
        "PIName".data (' ' :: '"' :: (escapeStr pin.data ++ ['"'])) pin
        ["Sponsor:".data, "  CampusGrid:".data, "    Name: \"OSG Connect\"".data]
        [("Sponsor",
          YVal.map [("CampusGrid", YVal.map [("Name", YVal.str "OSG Connect")])])] []
        rfl rfl (parseQuoted_escaped pin) s5
    have s3 : parseEntries 62 0
        (("Organization: \"".data ++ (escapeStr org.data ++ ['"'])) ::
          ("PIName: \"".data ++ (escapeStr pin.data ++ ['"'])) ::
          ["Sponsor:".data, "  CampusGrid:".data, "    Name: \"OSG Connect\"".data]) =
        some ([("Organization", YVal.str org), ("PIName", YVal.str pin),
          ("Sponsor",
            YVal.map [("CampusGrid", YVal.map [("Name", YVal.str "OSG Connect")])])], []) :=
      parseEntries_value_step 61 0
        ("Organization: \"".data ++ (escapeStr org.data ++ ['"']))
        "Organization".data (' ' :: '"' :: (escapeStr org.data ++ ['"'])) org
        (("PIName: \"".data ++ (escapeStr pin.data ++ ['"'])) ::
          ["Sponsor:".data, "  CampusGrid:".data, "    Name: \"OSG Connect\"".data])
        [("PIName", YVal.str pin),
          ("Sponsor",
            YVal.map [("CampusGrid", YVal.map [("Name", YVal.str "OSG Connect")])])] []
        rfl rfl (parseQuoted_escaped org) s4
    have s2 : parseEntries 63 0
        (("FieldOfScience: \"".data ++ (escapeStr fos.data ++ ['"'])) ::
          ("Organization: \"".data ++ (escapeStr org.data ++ ['"'])) ::
          ("PIName: \"".data ++ (escapeStr pin.data ++ ['"'])) ::
          ["Sponsor:".data, "  CampusGrid:".data, "    Name: \"OSG Connect\"".data]) =
        some ([("FieldOfScience", YVal.str fos), ("Organization", YVal.str org),
          ("PIName", YVal.str pin),
          ("Sponsor",
            YVal.map [("CampusGrid", YVal.map [("Name", YVal.str "OSG Connect")])])], []) :=
      parseEntries_value_step 62 0
        ("FieldOfScience: \"".data ++ (escapeStr fos.data ++ ['"']))
        "FieldOfScience".data (' ' :: '"' :: (escapeStr fos.data ++ ['"'])) fos
        (("Organization: \"".data ++ (escapeStr org.data ++ ['"'])) ::
          ("PIName: \"".data ++ (escapeStr pin.data ++ ['"'])) ::
          ["Sponsor:".data, "  CampusGrid:".data, "    Name: \"OSG Connect\"".data])
        [("Organization", YVal.str org), ("PIName", YVal.str pin),
          ("Sponsor",
            YVal.map [("CampusGrid", YVal.map [("Name", YVal.str "OSG Connect")])])] []
        rfl rfl (parseQuoted_escaped fos) s3
    have s1 : parseEntries 64 0
        (("Description: \"".data ++ (escapeStr d.data ++ ['"'])) ::
          ("FieldOfScience: \"".data ++ (escapeStr fos.data ++ ['"'])) ::
          ("Organization: \"".data ++ (escapeStr org.data ++ ['"'])) ::
          ("PIName: \"".data ++ (escapeStr pin.data ++ ['"'])) ::
          ["Sponsor:".data, "  CampusGrid:".data, "    Name: \"OSG Connect\"".data]) =
        some (buildEntry d fos org pin, []) :=
      parseEntries_value_step 63 0
        ("Description: \"".data ++ (escapeStr d.data ++ ['"']))
        "Description".data (' ' :: '"' :: (escapeStr d.data ++ ['"'])) d
        (("FieldOfScience: \"".data ++ (escapeStr fos.data ++ ['"'])) ::
          ("Organization: \"".data ++ (escapeStr org.data ++ ['"'])) ::
          ("PIName: \"".data ++ (escapeStr pin.data ++ ['"'])) ::
          ["Sponsor:".data, "  CampusGrid:".data, "    Name: \"OSG Connect\"".data])
        [("FieldOfScience", YVal.str fos), ("Organization", YVal.str org),
          ("PIName", YVal.str pin),
          ("Sponsor",
            YVal.map [("CampusGrid", YVal.map [("Name", YVal.str "OSG Connect")])])] []
        rfl rfl (parseQuoted_escaped d) s2
    unfold parseDoc
    rw [hsplit, s1]
  · unfold topLevelKeys
    rw [hsplit]
    rfl

/-- C4 witness: with the test fixture's concrete values, the file is
written, re-parses to the five-key record, and lists the keys in
insertion order. -/
theorem c4_witness :
    createTopologyFile c4Client "test-project" "/topology/projects/test-project.yaml" [] =
      (Except.ok (),
       fsWrite [] "/topology/projects/test-project.yaml"
         (dumpDoc (buildEntry "this is a test description" "Computer Sciences"
           "test-org" "pi-name")))
    ∧ parseDoc (dumpDoc (buildEntry "this is a test description" "Computer Sciences"
        "test-org" "pi-name")) =
      some (buildEntry "this is a test description" "Computer Sciences" "test-org" "pi-name")
    ∧ topLevelKeys (dumpDoc (buildEntry "this is a test description" "Computer Sciences"
        "test-org" "pi-name")) =
      ["Description", "FieldOfScience", "Organization", "PIName", "Sponsor"] :=
  c4_round_trip c4Client "test-project" "/topology/projects/test-project.yaml" []
    ⟨some "this is a test description", some "Computer Sciences", none⟩
    "this is a test description" "Computer Sciences" "test-org" "pi-name"
    rfl rfl rfl rfl rfl

end TopologySync
